import Mathlib

/-
Shallow embedding of the account-management core of the Trae-Account-Manager
repository (src-tauri).  The remote service client (`TraeApiClient`, module
`crate::api`) and the IDE synchronizer (`crate::machine`) are external
collaborators whose outcomes are passed in as environment parameters; file
persistence (`save_store`) is modelled as a write counter on the manager
state, and clock / uuid inputs (`chrono::Utc::now`, `uuid_simple`) are
explicit arguments.  Everything else follows the Rust source structurally.
-/

namespace TraeAM

/-- `List Char` infix test, used to model Rust `str::contains(&str)`. -/
def listInfix (pat : List Char) : List Char → Bool
  | [] => pat.isEmpty
  | c :: rest => pat.isPrefixOf (c :: rest) || listInfix pat rest

/-- Rust `str::contains` with a string pattern (substring test). -/
def strContains (s pat : String) : Bool :=
  listInfix pat.data s.data

/-- Rust `str::contains` with a `char` pattern. -/
def strContainsChar (s : String) (c : Char) : Bool :=
  s.data.any (fun x => x == c)

/-- Rust `str::trim`: strip leading and trailing whitespace (the inputs in
question are ASCII, where `Char.isWhitespace` agrees with Rust's
`char::is_whitespace`). -/
def strTrim (s : String) : String :=
  String.mk
    (((s.data.dropWhile Char.isWhitespace).reverse.dropWhile
      Char.isWhitespace).reverse)

/-- `account/types.rs`: struct `Account`. -/
structure Account where
  id : String
  name : String
  email : String
  avatar_url : String
  cookies : String
  jwt_token : Option String
  token_expired_at : Option String
  password : Option String
  user_id : String
  tenant_id : String
  region : String
  plan_type : String
  created_at : Int
  updated_at : Int
  is_active : Bool
  machine_id : Option String
deriving DecidableEq, Repr

/-- `account/types.rs`: `Account::new`.  The fresh id (Rust `uuid_simple()`),
the minted machine id (`Uuid::new_v4()`) and the timestamp are inputs. -/
def Account.new (id name email cookies user_id tenant_id : String)
    (now : Int) (machine_id : String) : Account where
  id := id
  name := name
  email := email
  avatar_url := ""
  cookies := cookies
  jwt_token := none
  token_expired_at := none
  password := none
  user_id := user_id
  tenant_id := tenant_id
  region := ""
  plan_type := "Free"
  created_at := now
  updated_at := now
  is_active := true
  machine_id := some machine_id

/-- `account/types.rs`: struct `AccountStore`. -/
structure AccountStore where
  accounts : List Account
  active_account_id : Option String
  current_account_id : Option String
deriving DecidableEq, Repr

/-- `AccountStore::default()`. -/
def AccountStore.default : AccountStore where
  accounts := []
  active_account_id := none
  current_account_id := none

/-- `AccountManager` state: the in-memory store plus counters observing the
side effects we reason about — `saves` counts `save_store` file rewrites and
`ideWrites` counts invocations of `machine::switch_trae_account` (the
external IDE state rewrite). -/
structure AccountManager where
  store : AccountStore
  saves : Nat
  ideWrites : Nat
deriving DecidableEq, Repr

/-- A manager over an empty (default) store. -/
def init_manager : AccountManager where
  store := AccountStore.default
  saves := 0
  ideWrites := 0

/-- `AccountManager::save_store`: whole-file rewrite, modelled as a counter
bump (the write is assumed to succeed; IO failure is out of model). -/
def save_store (m : AccountManager) : AccountManager :=
  { m with saves := m.saves + 1 }

/-- Replace the first account matching `account_id` (Rust: take the position
of the first match and mutate that element in place). -/
def update_first (l : List Account) (account_id : String)
    (f : Account → Account) : List Account :=
  match l with
  | [] => []
  | a :: rest =>
    if a.id == account_id then f a :: rest
    else a :: update_first rest account_id f

/-- Remove the first account matching `account_id`
(Rust: `accounts.remove(position)`). -/
def remove_first (l : List Account) (account_id : String) : List Account :=
  match l with
  | [] => []
  | a :: rest =>
    if a.id == account_id then rest
    else a :: remove_first rest account_id

/-- `crate::api` result of `get_user_token` (cookie → token exchange). -/
structure TokenResult where
  token : String
  user_id : String
  tenant_id : String
  expired_at : String
deriving DecidableEq, Repr

/-- `crate::api` result of `get_user_info` (cookie session). -/
structure UserInfoResult where
  screen_name : String
  non_plain_text_email : Option String
  avatar_url : String
  region : String
deriving DecidableEq, Repr

/-- `crate::api` result of `get_user_info_by_token`. -/
structure UserInfoByToken where
  user_id : String
  tenant_id : String
  screen_name : Option String
  email : Option String
  avatar_url : Option String
deriving DecidableEq, Repr

/-- `crate::api` result of `login_with_email`. -/
structure LoginResult where
  token : String
  cookies : String
  expired_at : String
  user_id : String
  tenant_id : String
deriving DecidableEq, Repr

/-- `crate::api::UsageSummary`; only `plan_type` is read by the manager. -/
structure UsageSummary where
  plan_type : String
deriving DecidableEq, Repr

/-- The remote service client (`TraeApiClient` and `login_with_email`),
an external collaborator: each call is a function of its credential input
returning either a result or the error message Rust would surface. -/
structure ApiEnv where
  get_user_token : String → Except String TokenResult
  get_user_info : String → Except String UserInfoResult
  get_user_info_by_token : String → Except String UserInfoByToken
  login_with_email : String → String → Except String LoginResult
  get_usage_summary_by_token : String → Except String UsageSummary
  get_usage_summary : String → Except String UsageSummary

/-- Shared tail of the three add paths: push the account, make it active if
it is the first one ever added, persist. -/
def insert_new_account (m : AccountManager) (account : Account) :
    AccountManager :=
  let store1 := { m.store with accounts := m.store.accounts ++ [account] }
  let store2 :=
    if store1.active_account_id.isNone then
      { store1 with active_account_id := some account.id }
    else store1
  save_store { m with store := store2 }

/-- `AccountManager::add_account` (cookie path).  On error the manager is
returned unchanged, as in the source where every error exits before any
mutation. -/
def add_account (env : ApiEnv) (m : AccountManager) (cookies : String)
    (password : Option String) (fresh_id machine_id : String) (now : Int) :
    Except String Account × AccountManager :=
  match env.get_user_token cookies with
  | .error e => (.error e, m)
  | .ok token_result =>
    match env.get_user_info cookies with
    | .error e => (.error e, m)
    | .ok user_info =>
      if m.store.accounts.any (fun a => a.user_id == token_result.user_id) then
        (.error "该账号已存在", m)
      else
        let base := Account.new fresh_id user_info.screen_name
          (user_info.non_plain_text_email.getD "") cookies
          token_result.user_id token_result.tenant_id now machine_id
        let account := { base with
          avatar_url := user_info.avatar_url
          region := user_info.region
          jwt_token := some token_result.token
          token_expired_at := some token_result.expired_at
          password := password }
        (.ok account, insert_new_account m account)

/-- Rust `format!("User_{}", &user_id[..8.min(user_id.len())])`
(ids are ASCII, so byte slicing agrees with character take). -/
def default_user_name (user_id : String) : String :=
  "User_" ++ user_id.take 8

/-- `AccountManager::add_account_by_token`. -/
def add_account_by_token (env : ApiEnv) (m : AccountManager) (token : String)
    (cookies : Option String) (password : Option String)
    (fresh_id machine_id : String) (now : Int) :
    Except String Account × AccountManager :=
  match env.get_user_info_by_token token with
  | .error e => (.error e, m)
  | .ok user_info =>
    if m.store.accounts.any (fun a => a.user_id == user_info.user_id) then
      (.error "该账号已存在", m)
    else
      let fallback :=
        (user_info.screen_name.getD (default_user_name user_info.user_id),
         user_info.email.getD "", user_info.avatar_url.getD "")
      let triple :=
        match cookies with
        | some cookies_str =>
          match env.get_user_info cookies_str with
          | .ok info =>
            (info.screen_name, info.non_plain_text_email.getD "",
             info.avatar_url)
          | .error _ => fallback
        | none => fallback
      let base := Account.new fresh_id triple.1 triple.2.1
        (cookies.getD "") user_info.user_id user_info.tenant_id now machine_id
      let account := { base with
        avatar_url := triple.2.2
        jwt_token := some token
        token_expired_at := none
        password := password }
      (.ok account, insert_new_account m account)

/-- `AccountManager::add_account_by_email`. -/
def add_account_by_email (env : ApiEnv) (m : AccountManager)
    (email password : String) (fresh_id machine_id : String) (now : Int) :
    Except String Account × AccountManager :=
  match env.login_with_email email password with
  | .error e => (.error e, m)
  | .ok login_result =>
    if m.store.accounts.any (fun a => a.user_id == login_result.user_id) then
      (.error "该账号已存在", m)
    else
      match env.get_user_info_by_token login_result.token with
      | .error e => (.error e, m)
      | .ok user_info =>
        let base := Account.new fresh_id
          (user_info.screen_name.getD ((email.splitOn "@").headD "User"))
          email login_result.cookies login_result.user_id
          login_result.tenant_id now machine_id
        let account := { base with
          avatar_url := user_info.avatar_url.getD ""
          jwt_token := some login_result.token
          token_expired_at := some login_result.expired_at
          password := some password }
        (.ok account, insert_new_account m account)

/-- `AccountManager::remove_account`. -/
def remove_account (m : AccountManager) (account_id : String) :
    Except String Unit × AccountManager :=
  if m.store.accounts.any (fun a => a.id == account_id) then
    let accounts' := remove_first m.store.accounts account_id
    let active' :=
      if m.store.active_account_id == some account_id then
        accounts'.head?.map (fun a => a.id)
      else m.store.active_account_id
    (.ok (), save_store { m with store :=
      { accounts := accounts'
        active_account_id := active'
        current_account_id := m.store.current_account_id } })
  else (.error "账号不存在", m)

/-- `AccountManager::clear_accounts`. -/
def clear_accounts (m : AccountManager) : Nat × AccountManager :=
  (m.store.accounts.length,
   save_store { m with store :=
     { accounts := [], active_account_id := none,
       current_account_id := none } })

/-- `AccountManager::set_active_account`. -/
def set_active_account (m : AccountManager) (account_id : String) :
    Except String Unit × AccountManager :=
  if m.store.accounts.any (fun a => a.id == account_id) then
    (.ok (), save_store { m with store :=
      { m.store with active_account_id := some account_id } })
  else (.error "账号不存在", m)

/-- `AccountManager::switch_account`.  `ide_result` is the outcome of the
external `machine::switch_trae_account` rewrite; invoking it bumps
`ideWrites`.  The subsequent best-effort `set_machine_guid` only logs in the
source and is not part of the state. -/
def switch_account (m : AccountManager) (account_id : String) (force : Bool)
    (ide_result : Except String Unit) :
    Except String Unit × AccountManager :=
  if !force && m.store.current_account_id == some account_id then
    (.error "该账号已经是当前使用的账号", m)
  else
    match m.store.accounts.find? (fun a => a.id == account_id) with
    | none => (.error "账号不存在", m)
    | some account =>
      match account.jwt_token with
      | none => (.error "账号没有有效的 Token，无法切换", m)
      | some _token =>
        let m1 := { m with ideWrites := m.ideWrites + 1 }
        match ide_result with
        | .error e => (.error e, m1)
        | .ok _ =>
          (.ok (), save_store { m1 with store :=
            { m1.store with
              active_account_id := some account_id
              current_account_id := some account_id } })

/-- `AccountManager::get_account`. -/
def get_account (m : AccountManager) (account_id : String) :
    Except String Account :=
  match m.store.accounts.find? (fun a => a.id == account_id) with
  | some a => .ok a
  | none => .error "账号不存在"

/-- `AccountManager::update_account_email` (used by `quick_register`):
ignores a whitespace-only address, otherwise stores the trimmed address. -/
def update_account_email (m : AccountManager) (account_id email : String)
    (now : Int) : Except String Unit × AccountManager :=
  let email' := strTrim email
  if email' == "" then (.ok (), m)
  else
    match m.store.accounts.find? (fun a => a.id == account_id) with
    | none => (.error "账号不存在", m)
    | some _ =>
      (.ok (), save_store { m with store := { m.store with
        accounts := update_first m.store.accounts account_id
          (fun a => { a with email := email', updated_at := now }) } })

/-- `update_account_profile`, email block: trim; a non-empty trimmed value
different from the stored one is written and marks the record changed. -/
def profile_email_step (account : Account) (email : Option String) :
    Account × Bool :=
  match email with
  | some next_email =>
    let trimmed := strTrim next_email
    if trimmed != "" && trimmed != account.email then
      ({ account with email := trimmed }, true)
    else (account, false)
  | none => (account, false)

/-- `update_account_profile`, password block: trim; empty clears, any
value different from the stored one marks the record changed. -/
def profile_password_step (account : Account) (password : Option String) :
    Account × Bool :=
  match password with
  | some next_password =>
    let trimmed := strTrim next_password
    let next_value := if trimmed == "" then none else some trimmed
    if next_value != account.password then
      ({ account with password := next_value }, true)
    else (account, false)
  | none => (account, false)

/-- `AccountManager::update_account_profile`. -/
def update_account_profile (m : AccountManager) (account_id : String)
    (email password : Option String) (now : Int) :
    Except String Account × AccountManager :=
  match m.store.accounts.find? (fun a => a.id == account_id) with
  | none => (.error "账号不存在", m)
  | some account =>
    let step1 := profile_email_step account email
    let step2 := profile_password_step step1.1 password
    let changed := step1.2 || step2.2
    let snapshot :=
      if changed then { step2.1 with updated_at := now } else step2.1
    let m' := { m with store := { m.store with
      accounts := update_first m.store.accounts account_id
        (fun _ => snapshot) } }
    if changed then (.ok snapshot, save_store m')
    else (.ok snapshot, m')

/-- Outcome of `AccountManager::get_account_usage`, instrumented with the
number of cookie-for-token exchanges and usage-call retries performed. -/
structure UsageOutcome where
  result : Except String UsageSummary
  mgr : AccountManager
  exchanges : Nat
  retries : Nat
deriving Repr

/-- Tail of `get_account_usage` after a usage summary was obtained: record
the plan type on the account, bump `updated_at` and persist. -/
def usage_finalize (m : AccountManager) (account_id : String)
    (summary : UsageSummary) (now : Int) : AccountManager :=
  save_store { m with store := { m.store with
    accounts := update_first m.store.accounts account_id
      (fun a => { a with plan_type := summary.plan_type,
                         updated_at := now }) } }

/-- `AccountManager::get_account_usage`: token first, on a `401` error with
non-empty cookies exchange the cookies for a fresh token, persist it, and
retry once; on `401` with no cookies fail; cookie-only and credential-less
accounts take the remaining branches. -/
def get_account_usage (env : ApiEnv) (m : AccountManager)
    (account_id : String) (now : Int) : UsageOutcome :=
  match m.store.accounts.find? (fun a => a.id == account_id) with
  | none => ⟨.error "账号不存在", m, 0, 0⟩
  | some account =>
    match account.jwt_token with
    | some token =>
      match env.get_usage_summary_by_token token with
      | .ok summary =>
        ⟨.ok summary, usage_finalize m account_id summary now, 0, 0⟩
      | .error e =>
        if strContains e "401" && !(account.cookies == "") then
          match env.get_user_token account.cookies with
          | .error e2 => ⟨.error e2, m, 1, 0⟩
          | .ok token_result =>
            let m1 := save_store { m with store := { m.store with
              accounts := update_first m.store.accounts account_id
                (fun a => { a with
                  jwt_token := some token_result.token
                  token_expired_at := some token_result.expired_at }) } }
            match env.get_usage_summary_by_token token_result.token with
            | .error e3 => ⟨.error e3, m1, 1, 1⟩
            | .ok summary =>
              ⟨.ok summary, usage_finalize m1 account_id summary now, 1, 1⟩
        else if strContains e "401" then
          ⟨.error "Token 已过期，请更新 Token 或 Cookies", m, 0, 0⟩
        else ⟨.error e, m, 0, 0⟩
    | none =>
      if !(account.cookies == "") then
        match env.get_usage_summary account.cookies with
        | .ok summary =>
          ⟨.ok summary, usage_finalize m account_id summary now, 0, 0⟩
        | .error e => ⟨.error e, m, 0, 0⟩
      else ⟨.error "账号没有有效的 Token 或 Cookies", m, 0, 0⟩

/-- The sanitized field subset serialized by
`AccountManager::export_accounts` (JSON encode/decode of these records is
taken to be faithful). -/
structure ExportRecord where
  name : String
  email : String
  cookies : String
  user_id : String
  tenant_id : String
  region : String
  plan_type : String
  avatar_url : String
  jwt_token : Option String
  machine_id : Option String
deriving DecidableEq, Repr

/-- `AccountManager::export_accounts`. -/
def export_accounts (m : AccountManager) : List ExportRecord :=
  m.store.accounts.map (fun acc =>
    ⟨acc.name, acc.email, acc.cookies, acc.user_id, acc.tenant_id,
     acc.region, acc.plan_type, acc.avatar_url, acc.jwt_token,
     acc.machine_id⟩)

/-- Outcome of `AccountManager::import_accounts`: the returned count of
successfully imported records, the number of `[WARN]` log lines printed for
non-duplicate per-item failures, and the final state. -/
structure ImportOutcome where
  count : Nat
  warnings : Nat
  mgr : AccountManager
deriving Repr

/-- Loop body of `import_accounts`: records without cookies are skipped,
each remaining record is added via the cookie path, duplicates
(message containing `已存在`) are skipped silently, any other failure is
logged and iteration continues.  `fresh` supplies the id and machine id
minted for the `idx`-th add. -/
def import_loop (env : ApiEnv) (fresh : Nat → String × String) (now : Int) :
    List ExportRecord → AccountManager → Nat → Nat → Nat → ImportOutcome
  | [], m, _idx, count, warnings => ⟨count, warnings, m⟩
  | item :: rest, m, idx, count, warnings =>
    if item.cookies == "" then
      import_loop env fresh now rest m idx count warnings
    else
      match add_account env m item.cookies none (fresh idx).1 (fresh idx).2
          now with
      | (.ok _, m') =>
        import_loop env fresh now rest m' (idx + 1) (count + 1) warnings
      | (.error e, m') =>
        if strContains e "已存在" then
          import_loop env fresh now rest m' (idx + 1) count warnings
        else
          import_loop env fresh now rest m' (idx + 1) count (warnings + 1)

/-- `AccountManager::import_accounts`. -/
def import_accounts (env : ApiEnv) (m : AccountManager)
    (records : List ExportRecord) (fresh : Nat → String × String)
    (now : Int) : ImportOutcome :=
  import_loop env fresh now records m 0 0 0

/-- `lib.rs`: `extract_verification_code` inner scan over the message
characters, carrying the current digit run. -/
def extract_loop : List Char → List Char → Option String
  | [], _ => none
  | c :: rest, digits =>
    if c.isDigit then
      if (digits ++ [c]).length == 6 then some (String.mk (digits ++ [c]))
      else extract_loop rest (digits ++ [c])
    else extract_loop rest []

/-- `lib.rs`: `extract_verification_code`. -/
def extract_verification_code (content : String) : Option String :=
  extract_loop content.data []

/-- Modelled from the spec: the first window of six consecutive ASCII
digits found while scanning the message body left to right. -/
def window_loop : List Char → Option String
  | [] => none
  | c :: rest =>
    if ((c :: rest).take 6).length == 6 &&
        ((c :: rest).take 6).all Char.isDigit then
      some (String.mk ((c :: rest).take 6))
    else window_loop rest

/-- Spec-level reading of the extraction rule, to be compared with
`extract_verification_code`. -/
def first_six_digit_window (content : String) : Option String :=
  window_loop content.data

/-- `lib.rs` / `quick_register`: condition under which the generated
mailbox address overwrites the remote-reported email. -/
def needs_email_override (email : String) : Bool :=
  strTrim email == "" || strContainsChar email '*' ||
    !(strContainsChar email '@')

/-- Tail of `quick_register` after `add_account` succeeded: fix up the
account email from the generated mailbox address when needed, then re-read
the account. -/
def quick_register_finalize (m : AccountManager) (account : Account)
    (gen_email : String) (now : Int) :
    Except String (Account × AccountManager) :=
  if needs_email_override account.email then
    match update_account_email m account.id gen_email now with
    | (.error e, _) => .error e
    | (.ok _, m') =>
      match get_account m' account.id with
      | .error e => .error e
      | .ok acc => .ok (acc, m')
  else .ok (account, m)

/-- Process-wide interactive-login state (`AppState.browser_login` behind
its async mutex): at most one outstanding `BrowserLoginSession`, identified
abstractly by a number; `openListeners` counts live callback listeners and
`openLoginSurfaces` counts open login browser windows. -/
structure LoginAppState where
  browserLogin : Option Nat
  openListeners : Nat
  openLoginSurfaces : Nat
deriving DecidableEq, Repr

/-- Initial process state: no session outstanding. -/
def init_login_state : LoginAppState :=
  ⟨none, 0, 0⟩

/-- `lib.rs`: guard and session creation of `start_browser_login` — if a
session is outstanding it fails at once, otherwise it binds the callback
listener, opens the login window and records the session. -/
def start_browser_login (s : LoginAppState) (session_id : Nat) :
    Except String Unit × LoginAppState :=
  if s.browserLogin.isSome then (.error "浏览器登录已在进行中", s)
  else
    (.ok (), ⟨some session_id, s.openListeners + 1, s.openLoginSurfaces + 1⟩)

/-- `lib.rs`: `finish_browser_login` / `cancel_browser_login` take the
outstanding session out of the state and, on every path, shut the callback
listener down and close the login window. -/
def finish_browser_login (s : LoginAppState) :
    Except String Unit × LoginAppState :=
  match s.browserLogin with
  | none => (.error "浏览器登录未开始", s)
  | some _ => (.ok (), ⟨none, s.openListeners - 1, s.openLoginSurfaces - 1⟩)

/-- `lib.rs`: entry guard of `quick_register` — while a browser-login
session is outstanding it fails immediately, before creating any state. -/
def quick_register_guard (s : LoginAppState) :
    Except String Unit × LoginAppState :=
  if s.browserLogin.isSome then (.error "浏览器登录正在进行中，请稍后再试", s)
  else (.ok (), s)

/-- The interactive-login events serialized by the state mutex. -/
inductive LoginEvent where
  | start (session_id : Nat)
  | finish
  | quickRegister
deriving DecidableEq, Repr

/-- One serialized step of the login state. -/
def login_step (s : LoginAppState) : LoginEvent → LoginAppState
  | .start session_id => (start_browser_login s session_id).2
  | .finish => (finish_browser_login s).2
  | .quickRegister => (quick_register_guard s).2

/-- Run a sequence of login events. -/
def login_run : List LoginEvent → LoginAppState → LoginAppState
  | [], s => s
  | e :: rest, s => login_run rest (login_step s e)

/-- The store operations named by the pointer invariant, with the external
inputs each one consumes. -/
inductive StoreOp where
  | add (tok : Except String TokenResult) (ui : Except String UserInfoResult)
      (cookies : String) (password : Option String)
      (fresh_id machine_id : String) (now : Int)
  | remove (account_id : String)
  | clear
  | setActive (account_id : String)
  | switch (account_id : String) (force : Bool)
      (ide_result : Except String Unit)

/-- Apply one store operation, keeping the state unchanged on error as the
source does. -/
def StoreOp.apply (op : StoreOp) (m : AccountManager) : AccountManager :=
  match op with
  | .add tok ui cookies password fresh_id machine_id now =>
    (add_account
      { get_user_token := fun _ => tok
        get_user_info := fun _ => ui
        get_user_info_by_token := fun _ => .error ""
        login_with_email := fun _ _ => .error ""
        get_usage_summary_by_token := fun _ => .error ""
        get_usage_summary := fun _ => .error "" }
      m cookies password fresh_id machine_id now).2
  | .remove account_id => (remove_account m account_id).2
  | .clear => (clear_accounts m).2
  | .setActive account_id => (set_active_account m account_id).2
  | .switch account_id force ide_result =>
    (switch_account m account_id force ide_result).2

/-- Run a sequence of store operations. -/
def run_store_ops : List StoreOp → AccountManager → AccountManager
  | [], m => m
  | op :: rest, m => run_store_ops rest (op.apply m)

/-- The `active_account_id` pointer is null or names a present account. -/
def active_ok (s : AccountStore) : Bool :=
  match s.active_account_id with
  | none => true
  | some id => s.accounts.any (fun a => a.id == id)

/-- The `current_account_id` pointer is null or names a present account. -/
def current_ok (s : AccountStore) : Bool :=
  match s.current_account_id with
  | none => true
  | some id => s.accounts.any (fun a => a.id == id)

/-! ### Concrete fixtures (used by witness theorems) -/

/-- A concrete stored account with both token and cookies. -/
def wAccount : Account :=
  { Account.new "a1" "Name" "user@example.com" "ck=1" "u1" "t1" 10 "m1" with
    jwt_token := some "tok1", token_expired_at := some "2031-01-01" }

/-- A concrete stored account whose cookie string is empty. -/
def wAccountNoCk : Account :=
  { Account.new "a2" "Name2" "user2@example.com" "" "u2" "t2" 10 "m2" with
    jwt_token := some "tok9" }

/-- A concrete remote environment matching `wAccount`. -/
def wEnv : ApiEnv where
  get_user_token := fun c =>
    if c == "ck=1" then .ok ⟨"tok2", "u1", "t1", "2032-01-01"⟩
    else .error "bad cookies"
  get_user_info := fun c =>
    if c == "ck=1" then .ok ⟨"Name", some "user@example.com", "", "SG"⟩
    else .error "bad cookies"
  get_user_info_by_token := fun t =>
    if t == "tok1" then
      .ok ⟨"u1", "t1", some "Name", some "user@example.com", some ""⟩
    else .error "bad token"
  login_with_email := fun e p =>
    if e == "user@example.com" && p == "pw" then
      .ok ⟨"tok3", "ck=1", "2033-01-01", "u1", "t1"⟩
    else .error "bad login"
  get_usage_summary_by_token := fun _ => .error "401 Unauthorized"
  get_usage_summary := fun _ => .error "server error"

/-- A concrete manager holding `wAccount`. -/
def wMgr : AccountManager := ⟨⟨[wAccount], some "a1", none⟩, 0, 0⟩

/-- `wMgr` with `wAccount` marked as the current IDE account. -/
def wMgrCur : AccountManager := ⟨⟨[wAccount], some "a1", some "a1"⟩, 0, 0⟩

/-- A concrete manager holding the cookie-less account. -/
def wMgrNoCk : AccountManager := ⟨⟨[wAccountNoCk], some "a2", none⟩, 0, 0⟩

/-- A concrete account whose remote-reported email is masked. -/
def wAccountMasked : Account :=
  { Account.new "a3" "N3" "u***r@example.com" "ck=3" "u3" "t3" 10 "m3" with
    jwt_token := some "tok5" }

/-- A concrete manager holding the masked-email account. -/
def wMgrMasked : AccountManager := ⟨⟨[wAccountMasked], some "a3", none⟩, 0, 0⟩

/-- A second concrete account. -/
def wAccount4 : Account :=
  { Account.new "a4" "N4" "u4@example.com" "ck=4" "u4" "t4" 10 "m4" with
    jwt_token := some "tok4" }

/-- A two-account manager whose current account is `a4`. -/
def wMgrCur2 : AccountManager :=
  ⟨⟨[wAccount, wAccount4], some "a1", some "a4"⟩, 0, 0⟩

/-! ### Helper lemmas -/

theorem window_loop_short (l : List Char) (h : l.length ≤ 5) :
    window_loop l = none := by
  induction l with
  | nil => rfl
  | cons c rest ih =>
    have hlen : (((c :: rest).take 6).length == 6) = false := by
      simp only [List.length_take, beq_eq_false_iff_ne, ne_eq]
      simp only [List.length_cons] at h ⊢
      omega
    simp only [window_loop, hlen, Bool.false_and, Bool.false_eq_true,
      if_false]
    exact ih (by simp only [List.length_cons] at h; omega)

theorem window_loop_fire (l : List Char) (h6 : (l.take 6).length = 6)
    (hd : (l.take 6).all Char.isDigit = true) :
    window_loop l = some (String.mk (l.take 6)) := by
  cases l with
  | nil => simp at h6
  | cons c rest =>
    simp only [window_loop, h6, hd, beq_self_eq_true, Bool.and_self,
      if_true]

theorem window_loop_skip (c : Char) (rest : List Char)
    (hc : c.isDigit = false) :
    ∀ pre : List Char, pre.length ≤ 5 →
      window_loop (pre ++ c :: rest) = window_loop rest := by
  intro pre
  induction pre with
  | nil =>
    intro _
    rw [List.nil_append, window_loop, if_neg]
    intro hcond
    rw [Bool.and_eq_true, List.all_eq_true] at hcond
    have hmem : c ∈ (c :: rest).take 6 := by
      cases rest with
      | nil => simp
      | cons d ds => simp [List.take_succ_cons]
    have hc' := hcond.2 c hmem
    rw [hc] at hc'
    exact Bool.false_ne_true hc'
  | cons p pre ih =>
    intro hlen
    have hstep : window_loop ((p :: pre) ++ c :: rest) =
        window_loop (pre ++ c :: rest) := by
      rw [List.cons_append, window_loop, if_neg]
      intro hcond
      rw [Bool.and_eq_true, List.all_eq_true] at hcond
      have hmem : c ∈ (p :: (pre ++ c :: rest)).take 6 := by
        rw [show (p :: (pre ++ c :: rest)) = (p :: pre) ++ c :: rest by simp,
          List.take_append_eq_append_take]
        refine List.mem_append_right _ ?_
        obtain ⟨k, hk⟩ : ∃ k, 6 - ((p :: pre) : List Char).length = k + 1 :=
          ⟨5 - ((p :: pre) : List Char).length, by
            simp only [List.length_cons] at hlen ⊢; omega⟩
        rw [hk, List.take_succ_cons]
        exact List.mem_cons_self _ _
      have hc' := hcond.2 c hmem
      rw [hc] at hc'
      exact Bool.false_ne_true hc'
    rw [hstep]
    exact ih (by simp only [List.length_cons] at hlen; omega)

theorem extract_loop_eq_window (l : List Char) :
    ∀ digits : List Char, digits.all Char.isDigit = true →
      digits.length ≤ 5 →
      extract_loop l digits = window_loop (digits ++ l) := by
  induction l with
  | nil =>
    intro digits _ hlen
    rw [List.append_nil]
    exact (window_loop_short digits hlen).symm
  | cons c rest ih =>
    intro digits hdig hlen
    cases hc : c.isDigit with
    | true =>
      by_cases h5 : digits.length = 5
      · have h6 : ((digits ++ [c]).length == 6) = true := by
          simp [h5]
        have htake : (digits ++ c :: rest).take 6 = digits ++ [c] := by
          rw [List.take_append_eq_append_take,
            List.take_of_length_le (by omega), h5]
          simp [List.take_succ_cons]
        have hall : ((digits ++ c :: rest).take 6).all Char.isDigit
            = true := by
          rw [htake, List.all_append, hdig]
          simp [hc]
        have hfire := window_loop_fire (digits ++ c :: rest)
          (by rw [htake]; simp [h5]) hall
        rw [hfire, htake]
        simp only [extract_loop, hc, h6, if_true]
      · have hlen' : (digits ++ [c]).length ≤ 5 := by
          simp only [List.length_append, List.length_cons,
            List.length_nil] at hlen ⊢
          omega
        have hdig' : (digits ++ [c]).all Char.isDigit = true := by
          rw [List.all_append, hdig]
          simp [hc]
        have h6 : ((digits ++ [c]).length == 6) = false := by
          simp only [List.length_append, List.length_cons, List.length_nil,
            beq_eq_false_iff_ne, ne_eq]
          omega
        have := ih (digits ++ [c]) hdig' hlen'
        simp only [extract_loop, hc, h6, Bool.false_eq_true, if_false,
          if_true]
        rw [this, List.append_assoc]
        rfl
    | false =>
      have := ih [] rfl (by simp)
      simp only [extract_loop, hc, Bool.false_eq_true, if_false]
      rw [this, List.nil_append, window_loop_skip c rest hc digits hlen]

theorem update_first_find? (l : List Account) (account_id : String)
    (f : Account → Account) (hf : ∀ a, (f a).id = a.id) :
    (update_first l account_id f).find? (fun a => a.id == account_id) =
      (l.find? (fun a => a.id == account_id)).map f := by
  induction l with
  | nil => rfl
  | cons a rest ih =>
    cases h : (a.id == account_id) with
    | true =>
      simp only [update_first, h, if_true, List.find?_cons]
      rw [show ((f a).id == account_id) = true by rw [hf a]; exact h]
      rfl
    | false =>
      simp only [update_first, h, Bool.false_eq_true, if_false,
        List.find?_cons, ih]

theorem update_first_self (l : List Account) (account_id : String)
    (a : Account)
    (hfind : l.find? (fun x => x.id == account_id) = some a) :
    update_first l account_id (fun _ => a) = l := by
  induction l with
  | nil => simp at hfind
  | cons b rest ih =>
    cases h : (b.id == account_id) with
    | true =>
      rw [List.find?_cons, h] at hfind
      simp only [update_first, h, if_true]
      cases hfind
      rfl
    | false =>
      rw [List.find?_cons, h] at hfind
      simp only [update_first, h, Bool.false_eq_true, if_false]
      rw [ih hfind]

theorem mem_remove_first (l : List Account) (account_id : String)
    (a : Account) (ha : a ∈ l) (hne : (a.id == account_id) = false) :
    a ∈ remove_first l account_id := by
  induction l with
  | nil => cases ha
  | cons b rest ih =>
    rw [List.mem_cons] at ha
    cases hb : (b.id == account_id) with
    | true =>
      simp only [remove_first, hb, if_true]
      cases ha with
      | inl h => rw [h] at hne; rw [hne] at hb; cases hb
      | inr h => exact h
    | false =>
      simp only [remove_first, hb, Bool.false_eq_true, if_false]
      cases ha with
      | inl h => exact h ▸ List.mem_cons_self _ _
      | inr h => exact List.mem_cons_of_mem _ (ih h)

theorem remove_first_length (l : List Account) (account_id : String)
    (h : l.any (fun a => a.id == account_id) = true) :
    (remove_first l account_id).length + 1 = l.length := by
  induction l with
  | nil => simp at h
  | cons b rest ih =>
    cases hb : (b.id == account_id) with
    | true => simp [remove_first, hb]
    | false =>
      rw [List.any_cons, hb, Bool.false_or] at h
      simp only [remove_first, hb, Bool.false_eq_true, if_false,
        List.length_cons, ih h]

theorem profile_email_step_no_change (account : Account)
    (email : Option String)
    (h : ∀ e, email = some e → strTrim e = "" ∨ strTrim e = account.email) :
    profile_email_step account email = (account, false) := by
  cases email with
  | none => rfl
  | some e =>
    rcases h e rfl with h0 | h0 <;> simp [profile_email_step, h0]

theorem profile_password_step_no_change (account : Account)
    (password : Option String)
    (h : ∀ p, password = some p →
      (if strTrim p == "" then none else some (strTrim p))
        = account.password) :
    profile_password_step account password = (account, false) := by
  cases password with
  | none => rfl
  | some p =>
    have h0 := h p rfl
    have h0' : (if strTrim p = "" then none else some (strTrim p))
        = account.password := by
      simpa using h0
    simp [profile_password_step, h0']

theorem profile_password_step_clears (account : Account) (p : String)
    (hp : strTrim p = "") :
    (profile_password_step account (some p)).1.password = none := by
  cases hacc : account.password with
  | none => simp [profile_password_step, hp, hacc]
  | some q => simp [profile_password_step, hp, hacc]

theorem window_loop_some : ∀ (l : List Char) (s : String),
    window_loop l = some s →
    ∃ i, ((l.drop i).take 6).length = 6 ∧
      ((l.drop i).take 6).all Char.isDigit = true ∧
      s = String.mk ((l.drop i).take 6) := by
  intro l
  induction l with
  | nil => intro s h; simp [window_loop] at h
  | cons c rest ih =>
    intro s h
    rw [window_loop] at h
    by_cases hcond : (((c :: rest).take 6).length == 6 &&
        ((c :: rest).take 6).all Char.isDigit) = true
    · rw [if_pos hcond] at h
      rw [Bool.and_eq_true, beq_iff_eq] at hcond
      refine ⟨0, ?_, ?_, ?_⟩
      · simpa using hcond.1
      · simpa using hcond.2
      · simpa using h.symm
    · rw [if_neg hcond] at h
      obtain ⟨i, h1, h2, h3⟩ := ih s h
      exact ⟨i + 1, by simpa [List.drop_succ_cons] using h1,
        by simpa [List.drop_succ_cons] using h2,
        by simpa [List.drop_succ_cons] using h3⟩

theorem login_run_inv (events : List LoginEvent) :
    ∀ s : LoginAppState,
      s.openListeners = (if s.browserLogin.isSome then 1 else 0) →
      s.openLoginSurfaces = (if s.browserLogin.isSome then 1 else 0) →
      (login_run events s).openListeners =
        (if (login_run events s).browserLogin.isSome then 1 else 0) ∧
      (login_run events s).openLoginSurfaces =
        (if (login_run events s).browserLogin.isSome then 1 else 0) := by
  induction events with
  | nil => intro s h1 h2; exact ⟨h1, h2⟩
  | cons e rest ih =>
    intro s h1 h2
    cases e with
    | start session_id =>
      cases hb : s.browserLogin with
      | some sid =>
        have hstep : login_step s (.start session_id) = s := by
          simp [login_step, start_browser_login, hb]
        rw [login_run, hstep]
        exact ih s h1 h2
      | none =>
        rw [hb] at h1 h2
        simp only [Option.isSome_none, Bool.false_eq_true, if_false]
          at h1 h2
        have hstep : login_step s (.start session_id) =
            ⟨some session_id, s.openListeners + 1,
              s.openLoginSurfaces + 1⟩ := by
          simp [login_step, start_browser_login, hb]
        rw [login_run, hstep]
        refine ih _ ?_ ?_ <;> simp [h1, h2]
    | finish =>
      cases hb : s.browserLogin with
      | some sid =>
        rw [hb] at h1 h2
        simp only [Option.isSome_some, if_true] at h1 h2
        have hstep : login_step s .finish =
            ⟨none, s.openListeners - 1, s.openLoginSurfaces - 1⟩ := by
          simp [login_step, finish_browser_login, hb]
        rw [login_run, hstep]
        refine ih _ ?_ ?_ <;> simp [h1, h2]
      | none =>
        have hstep : login_step s .finish = s := by
          simp [login_step, finish_browser_login, hb]
        rw [login_run, hstep]
        exact ih s h1 h2
    | quickRegister =>
      have hstep : login_step s .quickRegister = s := by
        show (quick_register_guard s).2 = s
        unfold quick_register_guard
        split <;> rfl
      rw [login_run, hstep]
      exact ih s h1 h2

theorem active_ok_insert (m : AccountManager) (account : Account)
    (h : active_ok m.store = true) :
    active_ok (insert_new_account m account).store = true := by
  cases hact : m.store.active_account_id with
  | none =>
    simp [insert_new_account, save_store, active_ok, hact,
      List.any_append]
  | some aid =>
    simp only [active_ok, hact] at h
    simp [insert_new_account, save_store, active_ok, hact,
      List.any_append, h]

theorem current_ok_insert (m : AccountManager) (account : Account)
    (h : current_ok m.store = true) :
    current_ok (insert_new_account m account).store = true := by
  cases hcur : m.store.current_account_id with
  | none =>
    cases hact : m.store.active_account_id with
    | none =>
      simp [insert_new_account, save_store, current_ok, hact, hcur]
    | some aid =>
      simp [insert_new_account, save_store, current_ok, hact, hcur]
  | some cid =>
    simp only [current_ok, hcur] at h
    cases hact : m.store.active_account_id with
    | none =>
      simp [insert_new_account, save_store, current_ok, hact, hcur,
        List.any_append, h]
    | some aid =>
      simp [insert_new_account, save_store, current_ok, hact, hcur,
        List.any_append, h]

theorem active_ok_step (op : StoreOp) (m : AccountManager)
    (h : active_ok m.store = true) :
    active_ok (op.apply m).store = true := by
  cases op with
  | add tok ui cookies password fresh_id machine_id now =>
    cases tok with
    | error e => simpa [StoreOp.apply, add_account] using h
    | ok tr =>
      cases ui with
      | error e => simpa [StoreOp.apply, add_account] using h
      | ok uiv =>
        by_cases hdup : m.store.accounts.any
            (fun a => a.user_id == tr.user_id) = true
        · simpa [StoreOp.apply, add_account, hdup] using h
        · have hdup' : m.store.accounts.any
              (fun a => a.user_id == tr.user_id) = false :=
            eq_false_of_ne_true hdup
          simp only [StoreOp.apply, add_account, hdup',
            Bool.false_eq_true, if_false]
          exact active_ok_insert m _ h
  | remove account_id =>
    simp only [StoreOp.apply, remove_account]
    by_cases hmem : m.store.accounts.any
        (fun a => a.id == account_id) = true
    · simp only [hmem, if_true, save_store]
      by_cases haeq : m.store.active_account_id = some account_id
      · have hb : (m.store.active_account_id == some account_id) = true := by
          rw [haeq]; exact beq_self_eq_true _
        simp only [hb, if_true]
        cases hrf : remove_first m.store.accounts account_id with
        | nil => simp [active_ok]
        | cons a rest => simp [active_ok, hrf]
      · have hb : (m.store.active_account_id == some account_id) = false :=
          beq_eq_false_iff_ne.mpr haeq
        simp only [hb, Bool.false_eq_true, if_false]
        cases hact : m.store.active_account_id with
        | none => simp [active_ok]
        | some aid =>
          simp only [active_ok, hact] at h ⊢
          rw [List.any_eq_true] at h ⊢
          obtain ⟨a, ha, hpa⟩ := h
          have hane : (a.id == account_id) = false := by
            rw [beq_iff_eq] at hpa
            rw [beq_eq_false_iff_ne, hpa]
            intro hcontra
            exact haeq (by rw [hact, hcontra])
          exact ⟨a, mem_remove_first m.store.accounts account_id a ha hane,
            hpa⟩
    · have hmem' : m.store.accounts.any (fun a => a.id == account_id)
          = false := eq_false_of_ne_true hmem
      simpa [hmem'] using h
  | clear =>
    simp [StoreOp.apply, clear_accounts, save_store, active_ok]
  | setActive account_id =>
    simp only [StoreOp.apply, set_active_account]
    by_cases hmem : m.store.accounts.any
        (fun a => a.id == account_id) = true
    · simp only [hmem, if_true, save_store, active_ok]
    · have hmem' : m.store.accounts.any (fun a => a.id == account_id)
          = false := eq_false_of_ne_true hmem
      simpa [hmem'] using h
  | switch account_id force ide_result =>
    simp only [StoreOp.apply, switch_account]
    by_cases hguard : (!force &&
        (m.store.current_account_id == some account_id)) = true
    · simp only [hguard, if_true]
      exact h
    · have hguard' : (!force &&
          (m.store.current_account_id == some account_id)) = false :=
        eq_false_of_ne_true hguard
      simp only [hguard', Bool.false_eq_true, if_false]
      cases hfind : m.store.accounts.find? (fun a => a.id == account_id) with
      | none => exact h
      | some account =>
        cases htok : account.jwt_token with
        | none => simp only [htok]; exact h
        | some token =>
          simp only [htok]
          cases ide_result with
          | error e => exact h
          | ok u =>
            have hpred := List.find?_some hfind
            simp only [save_store, active_ok]
            rw [List.any_eq_true]
            exact ⟨account, List.mem_of_find?_eq_some hfind, hpred⟩

theorem current_ok_step (op : StoreOp) (m : AccountManager)
    (h : current_ok m.store = true)
    (hrm : ∀ account_id, op = StoreOp.remove account_id →
      m.store.current_account_id ≠ some account_id) :
    current_ok (op.apply m).store = true := by
  cases op with
  | add tok ui cookies password fresh_id machine_id now =>
    cases tok with
    | error e => simpa [StoreOp.apply, add_account] using h
    | ok tr =>
      cases ui with
      | error e => simpa [StoreOp.apply, add_account] using h
      | ok uiv =>
        by_cases hdup : m.store.accounts.any
            (fun a => a.user_id == tr.user_id) = true
        · simpa [StoreOp.apply, add_account, hdup] using h
        · have hdup' : m.store.accounts.any
              (fun a => a.user_id == tr.user_id) = false :=
            eq_false_of_ne_true hdup
          simp only [StoreOp.apply, add_account, hdup',
            Bool.false_eq_true, if_false]
          exact current_ok_insert m _ h
  | remove account_id =>
    have hne : m.store.current_account_id ≠ some account_id :=
      hrm account_id rfl
    simp only [StoreOp.apply, remove_account]
    by_cases hmem : m.store.accounts.any
        (fun a => a.id == account_id) = true
    · simp only [hmem, if_true, save_store]
      cases hcur : m.store.current_account_id with
      | none => simp [current_ok]
      | some cid =>
        simp only [current_ok, hcur] at h ⊢
        rw [List.any_eq_true] at h ⊢
        obtain ⟨a, ha, hpa⟩ := h
        have hane : (a.id == account_id) = false := by
          rw [beq_iff_eq] at hpa
          rw [beq_eq_false_iff_ne, hpa]
          intro hcontra
          exact hne (by rw [hcur, hcontra])
        exact ⟨a, mem_remove_first m.store.accounts account_id a ha hane,
          hpa⟩
    · have hmem' : m.store.accounts.any (fun a => a.id == account_id)
          = false := eq_false_of_ne_true hmem
      simpa [hmem'] using h
  | clear =>
    simp [StoreOp.apply, clear_accounts, save_store, current_ok]
  | setActive account_id =>
    simp only [StoreOp.apply, set_active_account]
    by_cases hmem : m.store.accounts.any
        (fun a => a.id == account_id) = true
    · simp only [hmem, if_true, save_store]
      exact h
    · have hmem' : m.store.accounts.any (fun a => a.id == account_id)
          = false := eq_false_of_ne_true hmem
      simpa [hmem'] using h
  | switch account_id force ide_result =>
    simp only [StoreOp.apply, switch_account]
    by_cases hguard : (!force &&
        (m.store.current_account_id == some account_id)) = true
    · simp only [hguard, if_true]
      exact h
    · have hguard' : (!force &&
          (m.store.current_account_id == some account_id)) = false :=
        eq_false_of_ne_true hguard
      simp only [hguard', Bool.false_eq_true, if_false]
      cases hfind : m.store.accounts.find? (fun a => a.id == account_id) with
      | none => exact h
      | some account =>
        cases htok : account.jwt_token with
        | none => simp only [htok]; exact h
        | some token =>
          simp only [htok]
          cases ide_result with
          | error e => exact h
          | ok u =>
            have hpred := List.find?_some hfind
            simp only [save_store, current_ok]
            rw [List.any_eq_true]
            exact ⟨account, List.mem_of_find?_eq_some hfind, hpred⟩

theorem active_ok_run (ops : List StoreOp) :
    ∀ m : AccountManager, active_ok m.store = true →
      active_ok (run_store_ops ops m).store = true := by
  induction ops with
  | nil => intro m h; exact h
  | cons op rest ih =>
    intro m h
    exact ih _ (active_ok_step op m h)

/-! ### Claim theorems -/

/-- C3: for every message body, `extract_verification_code` returns the
first run of exactly six consecutive ASCII digits found scanning left to
right (formalised as the first six-long all-digit window,
`first_six_digit_window`), and returns none when no such run exists; in
particular it returns `"123456"` for `"...your code: 123456."`, none for
`"12-3456"`, and none when every digit run is shorter than six; whenever it
returns a code, that code is a six-long all-digit window of the body. -/
theorem extract_verification_code_first_six_run :
    (∀ content : String,
        extract_verification_code content = first_six_digit_window content)
    ∧ extract_verification_code "...your code: 123456." = some "123456"
    ∧ extract_verification_code "12-3456" = none
    ∧ extract_verification_code "12345" = none
    ∧ (∀ content code : String,
        extract_verification_code content = some code →
        ∃ i, ((content.data.drop i).take 6).length = 6 ∧
          ((content.data.drop i).take 6).all Char.isDigit = true ∧
          code = String.mk ((content.data.drop i).take 6)) := by
  refine ⟨?_, by decide, by decide, by decide, ?_⟩
  · intro content
    exact extract_loop_eq_window content.data [] rfl (by simp)
  · intro content code h
    rw [show extract_verification_code content = extract_loop content.data []
        from rfl,
      extract_loop_eq_window content.data [] rfl (by simp),
      List.nil_append] at h
    exact window_loop_some content.data code h

/-- Witness for the conditional part of the C3 theorem at the concrete
body "code 987654 end". -/
theorem extract_verification_code_first_six_run_witness :
    ∃ i, ((("code 987654 end" : String).data.drop i).take 6).length = 6 ∧
      ((("code 987654 end" : String).data.drop i).take 6).all Char.isDigit
        = true ∧
      ("987654" : String) =
        String.mk ((("code 987654 end" : String).data.drop i).take 6) :=
  extract_verification_code_first_six_run.2.2.2.2 "code 987654 end" "987654"
    (by decide)

/-- C4: every add path (by cookies, by token, by email+password) whose
resolved remote user id already equals the `user_id` of a stored account
returns the duplicate error and leaves the manager — accounts list,
pointers and persistence counter — completely unchanged. -/
theorem add_duplicate_user_id_rejected
    (env : ApiEnv) (m : AccountManager) (password : Option String)
    (fresh_id machine_id : String) (now : Int) :
    (∀ (cookies : String) token_result user_info,
      env.get_user_token cookies = .ok token_result →
      env.get_user_info cookies = .ok user_info →
      (∃ a ∈ m.store.accounts, a.user_id = token_result.user_id) →
      add_account env m cookies password fresh_id machine_id now =
        (.error "该账号已存在", m)) ∧
    (∀ (token : String) (cookies : Option String) user_info,
      env.get_user_info_by_token token = .ok user_info →
      (∃ a ∈ m.store.accounts, a.user_id = user_info.user_id) →
      add_account_by_token env m token cookies password fresh_id machine_id
        now = (.error "该账号已存在", m)) ∧
    (∀ (email pw : String) login_result,
      env.login_with_email email pw = .ok login_result →
      (∃ a ∈ m.store.accounts, a.user_id = login_result.user_id) →
      add_account_by_email env m email pw fresh_id machine_id now =
        (.error "该账号已存在", m)) := by
  refine ⟨?_, ?_, ?_⟩
  · intro cookies token_result user_info h1 h2 hdup
    have hany : m.store.accounts.any
        (fun a => a.user_id == token_result.user_id) = true := by
      rw [List.any_eq_true]
      obtain ⟨a, ha, hid⟩ := hdup
      exact ⟨a, ha, by rw [hid]; exact beq_self_eq_true _⟩
    simp only [add_account, h1, h2, hany, if_true]
  · intro token cookies user_info h1 hdup
    have hany : m.store.accounts.any
        (fun a => a.user_id == user_info.user_id) = true := by
      rw [List.any_eq_true]
      obtain ⟨a, ha, hid⟩ := hdup
      exact ⟨a, ha, by rw [hid]; exact beq_self_eq_true _⟩
    simp only [add_account_by_token, h1, hany, if_true]
  · intro email pw login_result h1 hdup
    have hany : m.store.accounts.any
        (fun a => a.user_id == login_result.user_id) = true := by
      rw [List.any_eq_true]
      obtain ⟨a, ha, hid⟩ := hdup
      exact ⟨a, ha, by rw [hid]; exact beq_self_eq_true _⟩
    simp only [add_account_by_email, h1, hany, if_true]

/-- Witness for C4 at a concrete store holding `wAccount` (user id `u1`)
and an environment that resolves all three credential kinds to `u1`. -/
theorem add_duplicate_user_id_rejected_witness :
    add_account wEnv wMgr "ck=1" none "f1" "mm1" 0 =
      (.error "该账号已存在", wMgr) ∧
    add_account_by_token wEnv wMgr "tok1" none none "f1" "mm1" 0 =
      (.error "该账号已存在", wMgr) ∧
    add_account_by_email wEnv wMgr "user@example.com" "pw" "f1" "mm1" 0 =
      (.error "该账号已存在", wMgr) := by
  have h := add_duplicate_user_id_rejected wEnv wMgr none "f1" "mm1" 0
  exact ⟨h.1 "ck=1" ⟨"tok2", "u1", "t1", "2032-01-01"⟩
      ⟨"Name", some "user@example.com", "", "SG"⟩ rfl rfl
      ⟨wAccount, by decide, by decide⟩,
    h.2.1 "tok1" none
      ⟨"u1", "t1", some "Name", some "user@example.com", some ""⟩
      rfl ⟨wAccount, by decide, by decide⟩,
    h.2.2 "user@example.com" "pw" ⟨"tok3", "ck=1", "2033-01-01", "u1", "t1"⟩
      rfl ⟨wAccount, by decide, by decide⟩⟩

/-- C5: `remove_account` fails with the not-found error for an unknown id
and leaves the store untouched; for a present id it succeeds, removes that
account (length drops by one, the list becomes `remove_first` of the old
one), and reassigns `active_account_id` to the first remaining account (or
null) exactly when the removed id was active, keeping it otherwise. -/
theorem remove_account_semantics (m : AccountManager) (account_id : String) :
    ((∀ a ∈ m.store.accounts, (a.id == account_id) = false) →
      remove_account m account_id = (.error "账号不存在", m)) ∧
    (m.store.accounts.any (fun a => a.id == account_id) = true →
      (remove_account m account_id).1 = .ok () ∧
      (remove_account m account_id).2.store.accounts =
        remove_first m.store.accounts account_id ∧
      (remove_account m account_id).2.store.accounts.length + 1 =
        m.store.accounts.length ∧
      (m.store.active_account_id = some account_id →
        (remove_account m account_id).2.store.active_account_id =
          (remove_first m.store.accounts account_id).head?.map
            (fun a => a.id)) ∧
      (m.store.active_account_id ≠ some account_id →
        (remove_account m account_id).2.store.active_account_id =
          m.store.active_account_id)) := by
  constructor
  · intro hnone
    have hany : m.store.accounts.any (fun a => a.id == account_id)
        = false := by
      cases h : m.store.accounts.any (fun a => a.id == account_id)
      · rfl
      · rw [List.any_eq_true] at h
        obtain ⟨a, ha, hpa⟩ := h
        rw [hnone a ha] at hpa
        cases hpa
    simp only [remove_account, hany, Bool.false_eq_true, if_false]
  · intro hany
    refine ⟨?_, ?_, ?_, ?_, ?_⟩
    · simp only [remove_account, hany, if_true]
    · simp only [remove_account, hany, if_true]
      rfl
    · have hlen := remove_first_length m.store.accounts account_id hany
      simp only [remove_account, hany, if_true]
      exact hlen
    · intro hact
      have hbeq : (m.store.active_account_id == some account_id)
          = true := by
        rw [hact]; exact beq_self_eq_true _
      simp only [remove_account, hany, if_true, hbeq, save_store]
    · intro hne
      have hbeq : (m.store.active_account_id == some account_id)
          = false := beq_eq_false_iff_ne.mpr hne
      simp only [remove_account, hany, if_true, hbeq,
        Bool.false_eq_true, if_false, save_store]

/-- Witness for C5: unknown id rejected; removing the active account of a
one-account store succeeds. -/
theorem remove_account_semantics_witness :
    remove_account wMgr "missing" = (.error "账号不存在", wMgr) ∧
    (remove_account wMgr "a1").1 = .ok () := by
  exact ⟨(remove_account_semantics wMgr "missing").1 (by decide),
    ((remove_account_semantics wMgr "a1").2 (by decide)).1⟩

/-- C6: `update_account_profile` trims both optional inputs; when neither
trimmed field differs from the stored value (for the email, a whitespace
only value is also ignored) the call performs zero persistence writes and
returns the account — including `updated_at` — unchanged, with the whole
manager state equal to the input; a password given as an empty or
whitespace-only string clears the stored password. -/
theorem update_account_profile_no_change_and_clear
    (m : AccountManager) (account_id : String) (acc : Account)
    (email password : Option String) (now : Int)
    (hfind : m.store.accounts.find? (fun a => a.id == account_id)
      = some acc) :
    ((∀ e, email = some e → strTrim e = "" ∨ strTrim e = acc.email) →
     (∀ p, password = some p →
       (if strTrim p == "" then none else some (strTrim p))
         = acc.password) →
     update_account_profile m account_id email password now = (.ok acc, m))
    ∧
    (∀ p, password = some p → strTrim p = "" →
     ∃ acc',
       (update_account_profile m account_id email password now).1 =
         .ok acc' ∧
       acc'.password = none) := by
  constructor
  · intro hemail hpassword
    have h1 := profile_email_step_no_change acc email hemail
    have h2 := profile_password_step_no_change acc password hpassword
    simp only [update_account_profile, hfind, h1, h2, Bool.or_false,
      Bool.false_eq_true, if_false]
    rw [update_first_self m.store.accounts account_id acc hfind]
  · intro p hp hptrim
    subst hp
    have hclear := profile_password_step_clears
      (profile_email_step acc email).1 p hptrim
    simp only [update_account_profile, hfind]
    cases hch : (profile_email_step acc email).2 ||
        (profile_password_step (profile_email_step acc email).1
          (some p)).2 with
    | false =>
      refine ⟨(profile_password_step (profile_email_step acc email).1
        (some p)).1, ?_, hclear⟩
      simp only [hch, Bool.false_eq_true, if_false]
    | true =>
      refine ⟨{ (profile_password_step (profile_email_step acc email).1
        (some p)).1 with updated_at := now }, ?_, hclear⟩
      simp only [hch, if_true]

/-- Witness for C6: unchanged inputs (whitespace-padded same email, empty
password against a password-less account) return `wMgr` unchanged; a
whitespace-only password clears the stored password. -/
theorem update_account_profile_no_change_and_clear_witness :
    update_account_profile wMgr "a1" (some " user@example.com ") (some "")
      99 = (.ok wAccount, wMgr) ∧
    (∃ acc',
      (update_account_profile wMgr "a1" none (some "  ") 99).1 =
        .ok acc' ∧
      acc'.password = none) := by
  have h1 := update_account_profile_no_change_and_clear wMgr "a1" wAccount
    (some " user@example.com ") (some "") 99 (by decide)
  have h2 := update_account_profile_no_change_and_clear wMgr "a1" wAccount
    none (some "  ") 99 (by decide)
  exact ⟨h1.1 (by intro e he; cases he; decide)
      (by intro p hp; cases hp; decide),
    h2.2 "  " rfl (by decide)⟩

/-- C8: after `add_account` succeeded inside `quick_register`, if the
remote-reported email of the new account is empty (after trimming),
contains the masking character `*`, or lacks an `@`, the generated mailbox
address overwrites it as the stored email of the account; otherwise the
remote-reported email is kept and the store is untouched. -/
theorem quick_register_email_policy (m : AccountManager) (account : Account)
    (gen_email : String) (now : Int)
    (hfind : m.store.accounts.find? (fun a => a.id == account.id)
      = some account)
    (htrim : strTrim gen_email = gen_email) (hne : gen_email ≠ "") :
    (needs_email_override account.email = true →
      ∃ acc' m',
        quick_register_finalize m account gen_email now = .ok (acc', m') ∧
        acc'.email = gen_email ∧
        m'.store.accounts.find? (fun a => a.id == account.id) =
          some acc') ∧
    (needs_email_override account.email = false →
      quick_register_finalize m account gen_email now =
        .ok (account, m)) := by
  constructor
  · intro hov
    have hbeq : (gen_email == "") = false := beq_eq_false_iff_ne.mpr hne
    have hupd : (update_first m.store.accounts account.id
        (fun a => { a with email := gen_email, updated_at := now })).find?
          (fun a => a.id == account.id) =
        some { account with email := gen_email, updated_at := now } := by
      rw [update_first_find? m.store.accounts account.id
        (fun a => { a with email := gen_email, updated_at := now })
        (fun _ => rfl), hfind]
      rfl
    refine ⟨{ account with email := gen_email, updated_at := now },
      save_store { m with store := { m.store with
        accounts := update_first m.store.accounts account.id
          (fun a => { a with email := gen_email, updated_at := now }) } },
      ?_, rfl, ?_⟩
    · simp only [quick_register_finalize, hov, if_true,
        update_account_email, htrim, hbeq, Bool.false_eq_true, if_false,
        hfind, get_account, save_store, hupd]
    · simp only [save_store]
      exact hupd
  · intro hov
    simp only [quick_register_finalize, hov, Bool.false_eq_true, if_false]

/-- Witness for C8: the masked email `u***r@example.com` is overwritten by
the generated address; the clean email of `wAccount` is kept. -/
theorem quick_register_email_policy_witness :
    (∃ acc' m',
      quick_register_finalize wMgrMasked wAccountMasked "gen8@mail.test" 99
        = .ok (acc', m') ∧
      acc'.email = "gen8@mail.test" ∧
      m'.store.accounts.find? (fun a => a.id == wAccountMasked.id) =
        some acc') ∧
    quick_register_finalize wMgr wAccount "gen8@mail.test" 99 =
      .ok (wAccount, wMgr) := by
  have h1 := quick_register_email_policy wMgrMasked wAccountMasked
    "gen8@mail.test" 99 (by decide) (by decide) (by decide)
  have h2 := quick_register_email_policy wMgr wAccount
    "gen8@mail.test" 99 (by decide) (by decide) (by decide)
  exact ⟨h1.1 (by decide), h2.2 (by decide)⟩

/-- C10: `switch_account` with `force = false` on the id already recorded
as `current_account_id` fails before the external-IDE rewrite and before
any store mutation (the whole manager, including the `ideWrites` and
`saves` counters, is returned unchanged); with `force = true` the guard
does not fire and — given the account exists, carries a token and the IDE
rewrite succeeds — the switch completes and points both pointers at the
account. -/
theorem switch_account_same_id_guard (m : AccountManager)
    (account_id : String) (ide_result : Except String Unit) :
    (m.store.current_account_id = some account_id →
      switch_account m account_id false ide_result =
        (.error "该账号已经是当前使用的账号", m)) ∧
    (∀ account token,
      m.store.accounts.find? (fun a => a.id == account_id) = some account →
      account.jwt_token = some token → ide_result = .ok () →
      (switch_account m account_id true ide_result).1 = .ok () ∧
      (switch_account m account_id true ide_result).2.store.active_account_id
        = some account_id ∧
      (switch_account m account_id true ide_result).2.store.current_account_id
        = some account_id) := by
  constructor
  · intro hcur
    have hbeq : (m.store.current_account_id == some account_id)
        = true := by
      rw [hcur]; exact beq_self_eq_true _
    simp only [switch_account, hbeq, Bool.not_false, Bool.true_and, if_true]
  · intro account token hfind htok hide
    simp only [switch_account, Bool.not_true, Bool.false_and,
      Bool.false_eq_true, if_false, hfind, htok, hide, save_store]
    exact ⟨trivial, trivial, trivial⟩

/-- Witness for C10: non-forced switch to the current account rejected;
forced switch on `wMgr` succeeds. -/
theorem switch_account_same_id_guard_witness :
    switch_account wMgrCur "a1" false (.ok ()) =
      (.error "该账号已经是当前使用的账号", wMgrCur) ∧
    (switch_account wMgr "a1" true (.ok ())).1 = .ok () := by
  exact ⟨(switch_account_same_id_guard wMgrCur "a1" (.ok ())).1 rfl,
    ((switch_account_same_id_guard wMgr "a1" (.ok ())).2 wAccount "tok1"
      (by decide) (by decide) rfl).1⟩

/-- C1: for a stored account with a token, when the usage-summary call made
with that token fails with an authorization-class (`401`) error: with a
non-empty cookie string and a successful cookie exchange,
`get_account_usage` performs exactly one exchange, persists the fresh token
and expiry to the store (at least one store write more than before), and
retries the usage call exactly once; with an empty cookie string it fails
with the token-expired (AuthExpired-style) error, performing zero exchanges
and zero retries and leaving the manager unchanged. -/
theorem get_account_usage_auth_refresh (env : ApiEnv) (m : AccountManager)
    (account_id : String) (now : Int) (account : Account) (token e : String)
    (hfind : m.store.accounts.find? (fun a => a.id == account_id)
      = some account)
    (htok : account.jwt_token = some token)
    (hfail : env.get_usage_summary_by_token token = .error e)
    (h401 : strContains e "401" = true) :
    (∀ token_result, account.cookies ≠ "" →
      env.get_user_token account.cookies = .ok token_result →
      (get_account_usage env m account_id now).exchanges = 1 ∧
      (get_account_usage env m account_id now).retries = 1 ∧
      m.saves + 1 ≤ (get_account_usage env m account_id now).mgr.saves ∧
      (∃ acc',
        (get_account_usage env m account_id now).mgr.store.accounts.find?
          (fun a => a.id == account_id) = some acc' ∧
        acc'.jwt_token = some token_result.token ∧
        acc'.token_expired_at = some token_result.expired_at)) ∧
    (account.cookies = "" →
      get_account_usage env m account_id now =
        ⟨.error "Token 已过期，请更新 Token 或 Cookies", m, 0, 0⟩) := by
  constructor
  · intro token_result hck hexch
    have hbeq : (account.cookies == "") = false := beq_eq_false_iff_ne.mpr hck
    have hfind1 : (update_first m.store.accounts account_id
        (fun a => { a with
          jwt_token := some token_result.token
          token_expired_at := some token_result.expired_at })).find?
        (fun a => a.id == account_id) =
        some { account with
          jwt_token := some token_result.token
          token_expired_at := some token_result.expired_at } := by
      rw [update_first_find? m.store.accounts account_id
        (fun a => { a with
          jwt_token := some token_result.token
          token_expired_at := some token_result.expired_at })
        (fun _ => rfl), hfind]
      rfl
    cases hretry : env.get_usage_summary_by_token token_result.token with
    | error e3 =>
      simp only [get_account_usage, hfind, htok, hfail, h401, hbeq,
        Bool.not_false, Bool.and_self, if_true, hexch, hretry, save_store]
      exact ⟨trivial, trivial, by omega, _, hfind1, rfl, rfl⟩
    | ok summary =>
      have hfind2 : (update_first (update_first m.store.accounts account_id
          (fun a => { a with
            jwt_token := some token_result.token
            token_expired_at := some token_result.expired_at }))
          account_id (fun a => { a with
            plan_type := summary.plan_type, updated_at := now })).find?
          (fun a => a.id == account_id) =
          some { account with
            jwt_token := some token_result.token
            token_expired_at := some token_result.expired_at
            plan_type := summary.plan_type
            updated_at := now } := by
        rw [update_first_find?
          (update_first m.store.accounts account_id
            (fun a => { a with
              jwt_token := some token_result.token
              token_expired_at := some token_result.expired_at }))
          account_id
          (fun a => { a with
            plan_type := summary.plan_type, updated_at := now })
          (fun _ => rfl), hfind1]
        rfl
      simp only [get_account_usage, hfind, htok, hfail, h401, hbeq,
        Bool.not_false, Bool.and_self, if_true, hexch, hretry,
        usage_finalize, save_store]
      exact ⟨trivial, trivial, by omega, _, hfind2, rfl, rfl⟩
  · intro hck
    have hbeq : (account.cookies == "") = true := by
      rw [hck]; exact beq_self_eq_true _
    simp only [get_account_usage, hfind, htok, hfail, h401, hbeq,
      Bool.not_true, Bool.and_false, Bool.false_eq_true, if_false, if_true]

/-- Witness for C1 on `wEnv` (usage calls fail with a 401 error, the
cookie exchange succeeds for `wAccount`'s cookies): exchange and retry
counts for the cookie-backed account, and the AuthExpired-style outcome
for the cookie-less account. -/
theorem get_account_usage_auth_refresh_witness :
    (get_account_usage wEnv wMgr "a1" 99).exchanges = 1 ∧
    (get_account_usage wEnv wMgr "a1" 99).retries = 1 ∧
    get_account_usage wEnv wMgrNoCk "a2" 99 =
      ⟨.error "Token 已过期，请更新 Token 或 Cookies", wMgrNoCk, 0, 0⟩ := by
  have h1 := (get_account_usage_auth_refresh wEnv wMgr "a1" 99 wAccount
    "tok1" "401 Unauthorized" (by decide) (by decide) rfl (by decide)).1
    ⟨"tok2", "u1", "t1", "2032-01-01"⟩ (by decide) rfl
  have h2 := (get_account_usage_auth_refresh wEnv wMgrNoCk "a2" 99
    wAccountNoCk "tok9" "401 Unauthorized" (by decide) (by decide) rfl
    (by decide)).2 (by decide)
  exact ⟨h1.1, h1.2.1, h2⟩

/-- C7: exporting a store containing one account and re-importing the
exported document into an empty store (with the remote still resolving the
account's non-empty cookies to the original user id) yields exactly one
account carrying the original remote user id; a second import pass over
the same document imports 0 and prints no warning — the duplicate is
silently skipped as already-existing — leaving the store unchanged; and a
failing record (here prepended) is logged as a warning while iteration
continues, and the returned value counts only successful imports. -/
theorem export_import_round_trip (env : ApiEnv) (acc : Account)
    (tr : TokenResult) (ui : UserInfoResult) (fresh : Nat → String × String)
    (now : Int) (bad : ExportRecord) (ebad : String)
    (hck : (acc.cookies == "") = false)
    (htr : env.get_user_token acc.cookies = .ok tr)
    (huid : tr.user_id = acc.user_id)
    (hui : env.get_user_info acc.cookies = .ok ui)
    (hbadck : (bad.cookies == "") = false)
    (hbadtr : env.get_user_token bad.cookies = .error ebad)
    (hbadmsg : strContains ebad "已存在" = false) :
    (import_accounts env init_manager
        (export_accounts ⟨⟨[acc], some acc.id, none⟩, 0, 0⟩) fresh
        now).count = 1 ∧
    (import_accounts env init_manager
        (export_accounts ⟨⟨[acc], some acc.id, none⟩, 0, 0⟩) fresh
        now).mgr.store.accounts.map (fun a => a.user_id) = [acc.user_id] ∧
    (import_accounts env
        (import_accounts env init_manager
          (export_accounts ⟨⟨[acc], some acc.id, none⟩, 0, 0⟩) fresh
          now).mgr
        (export_accounts ⟨⟨[acc], some acc.id, none⟩, 0, 0⟩) fresh now =
      ⟨0, 0,
        (import_accounts env init_manager
          (export_accounts ⟨⟨[acc], some acc.id, none⟩, 0, 0⟩) fresh
          now).mgr⟩) ∧
    (import_accounts env init_manager
        (bad :: export_accounts ⟨⟨[acc], some acc.id, none⟩, 0, 0⟩) fresh
        now).count = 1 ∧
    (import_accounts env init_manager
        (bad :: export_accounts ⟨⟨[acc], some acc.id, none⟩, 0, 0⟩) fresh
        now).warnings = 1 := by
  have hdup : strContains "该账号已存在" "已存在" = true := by decide
  refine ⟨?_, ?_, ?_, ?_, ?_⟩ <;>
    simp only [import_accounts, import_loop, export_accounts, List.map_cons,
      List.map_nil, add_account, htr, hui, hck, hbadck, hbadtr, hbadmsg,
      hdup, insert_new_account, save_store, init_manager,
      AccountStore.default, Account.new, List.any_nil, List.any_cons,
      Option.isNone_none, Option.isNone_some, beq_self_eq_true,
      Bool.or_false, Bool.false_or, Bool.false_eq_true, if_false, if_true,
      huid, List.nil_append]

/-- Witness for C7 on the fixture environment: `wAccount` exported from a
one-account store and re-imported into an empty store; a malformed record
(`badRec`) with unusable cookies prepended for the log-and-continue part. -/
theorem export_import_round_trip_witness :
    (import_accounts wEnv init_manager
        (export_accounts ⟨⟨[wAccount], some wAccount.id, none⟩, 0, 0⟩)
        (fun n => (toString n, toString n)) 50).count = 1 ∧
    (import_accounts wEnv
        (import_accounts wEnv init_manager
          (export_accounts ⟨⟨[wAccount], some wAccount.id, none⟩, 0, 0⟩)
          (fun n => (toString n, toString n)) 50).mgr
        (export_accounts ⟨⟨[wAccount], some wAccount.id, none⟩, 0, 0⟩)
        (fun n => (toString n, toString n)) 50).count = 0 := by
  have h := export_import_round_trip wEnv wAccount
    ⟨"tok2", "u1", "t1", "2032-01-01"⟩
    ⟨"Name", some "user@example.com", "", "SG"⟩
    (fun n => (toString n, toString n)) 50
    ⟨"B", "b@x", "ck=bad", "ub", "tb", "", "Free", "", none, none⟩
    "bad cookies" (by decide) rfl (by decide) rfl (by decide) rfl
    (by decide)
  exact ⟨h.1, by rw [h.2.2.1]⟩

/-- C9: over every serialized sequence of login events started from the
initial process state, at most one callback listener and at most one
browser-login surface are ever open; and whenever a browser-login session
is outstanding, both `start_browser_login` and `quick_register` fail
immediately with an error and leave the process state — hence any session
bookkeeping — completely unchanged. -/
theorem single_login_session_guard :
    (∀ events : List LoginEvent,
      (login_run events init_login_state).openListeners ≤ 1 ∧
      (login_run events init_login_state).openLoginSurfaces ≤ 1) ∧
    (∀ (s : LoginAppState) (session_id : Nat),
      s.browserLogin.isSome = true →
      start_browser_login s session_id = (.error "浏览器登录已在进行中", s) ∧
      quick_register_guard s =
        (.error "浏览器登录正在进行中，请稍后再试", s)) := by
  constructor
  · intro events
    have h := login_run_inv events init_login_state rfl rfl
    constructor
    · rw [h.1]; split <;> omega
    · rw [h.2]; split <;> omega
  · intro s session_id hs
    constructor
    · simp only [start_browser_login, hs, if_true]
    · simp only [quick_register_guard, hs, if_true]

/-- Witness for C9 at a concrete outstanding session state. -/
theorem single_login_session_guard_witness :
    start_browser_login ⟨some 0, 1, 1⟩ 7 =
      (.error "浏览器登录已在进行中", ⟨some 0, 1, 1⟩) ∧
    quick_register_guard ⟨some 0, 1, 1⟩ =
      (.error "浏览器登录正在进行中，请稍后再试", ⟨some 0, 1, 1⟩) :=
  single_login_session_guard.2 ⟨some 0, 1, 1⟩ 7 rfl

/-- C2 counterexample: from the empty store, add an account `a1`, switch to
it (making it both active and current), then remove it — `remove_account`
reassigns only `active_account_id`, so `current_account_id` is left
pointing at the removed account while the accounts list is empty, refuting
"both store pointers are each either null or the id of a present account
after every sequence of store operations". -/
theorem store_pointer_invariant_counterexample :
    current_ok (run_store_ops
      [ .add (.ok ⟨"tk", "u1", "t1", "2031-01-01"⟩)
          (.ok ⟨"Name", some "e@x.com", "", "SG"⟩) "ck=1" none "a1" "m1" 100,
        .switch "a1" true (.ok ()),
        .remove "a1" ] init_manager).store = false ∧
    (run_store_ops
      [ .add (.ok ⟨"tk", "u1", "t1", "2031-01-01"⟩)
          (.ok ⟨"Name", some "e@x.com", "", "SG"⟩) "ck=1" none "a1" "m1" 100,
        .switch "a1" true (.ok ()),
        .remove "a1" ] init_manager).store.current_account_id = some "a1" ∧
    (run_store_ops
      [ .add (.ok ⟨"tk", "u1", "t1", "2031-01-01"⟩)
          (.ok ⟨"Name", some "e@x.com", "", "SG"⟩) "ck=1" none "a1" "m1" 100,
        .switch "a1" true (.ok ()),
        .remove "a1" ] init_manager).store.accounts = [] ∧
    active_ok (run_store_ops
      [ .add (.ok ⟨"tk", "u1", "t1", "2031-01-01"⟩)
          (.ok ⟨"Name", some "e@x.com", "", "SG"⟩) "ck=1" none "a1" "m1" 100,
        .switch "a1" true (.ok ()),
        .remove "a1" ] init_manager).store = true := by
  exact ⟨by decide, by decide, by decide, by decide⟩

/-- C2 (amended): after every sequence of store operations (add, remove,
clear, set-active, switch) the `active_account_id` pointer is null or the
id of a present account; `current_account_id` enjoys the same preservation
under every single operation except a `remove` of the account it points to
— removing the current account leaves it dangling (see the
counterexample). -/
theorem store_pointer_invariant_amended :
    (∀ (ops : List StoreOp) (m : AccountManager),
      active_ok m.store = true →
      active_ok (run_store_ops ops m).store = true) ∧
    (∀ (op : StoreOp) (m : AccountManager),
      current_ok m.store = true →
      (∀ account_id, op = StoreOp.remove account_id →
        m.store.current_account_id ≠ some account_id) →
      current_ok (op.apply m).store = true) :=
  ⟨fun ops m h => active_ok_run ops m h,
   fun op m h hrm => current_ok_step op m h hrm⟩

/-- Witness for the amended C2 at a concrete sequence (add, switch, clear)
and a concrete non-current removal. -/
theorem store_pointer_invariant_amended_witness :
    active_ok (run_store_ops
      [ .add (.ok ⟨"tk", "u1", "t1", "2031-01-01"⟩)
          (.ok ⟨"Name", some "e@x.com", "", "SG"⟩) "ck=1" none "a1" "m1" 100,
        .switch "a1" true (.ok ()),
        .clear ] init_manager).store = true ∧
    current_ok ((StoreOp.remove "a1").apply wMgrCur2).store = true := by
  exact ⟨store_pointer_invariant_amended.1 _ init_manager (by decide),
    store_pointer_invariant_amended.2 (StoreOp.remove "a1") wMgrCur2
      (by decide)
      (by intro account_id heq; cases heq; decide)⟩

end TraeAM
